import Mathlib

/-!
Verification development for the `heye` CLI tool (single source file `heye.py`).

The core of the tool is embedded shallowly:
* Python strings that are manipulated character-wise (lowercasing, suffix
  tests, splitting on dots) are modelled as `List Char` (`PyStr`); strings
  that are only moved around whole (URLs, tokens, MIME strings) are Lean
  `String`s.
* The config file on disk is modelled by the `ConfigFile` state: it is either
  missing, unreadable (parse / IO / encoding failure), or stores a flat
  key-value JSON document, modelled at the object level as an association
  list `Doc` with string keys and string values.  Reading a stored document
  back is the `json.dump`/`json.load` round-trip, which is modelled as the
  identity on the stored document.
* Exceptions are modelled by explicit result types (`ValidateResult`,
  `PyError`, `Except`).
* The network stream is modelled as a finite list of chunks, each carrying
  an optional text delta (`Option PyStr`); `None` plays the `None` of Python and
  the empty list plays the empty (falsy) string.
-/

namespace Heye

/-- Python strings, viewed as character sequences. -/
abbrev PyStr := List Char

/-- Python `str.lower()` (character-wise lowercasing; faithful on ASCII,
which is all the extension comparison logic touches). -/
def pyLower (s : PyStr) : PyStr := s.map Char.toLower

/-! ## Configuration store (`load_config`, `save_config`, `_setup_configuration`) -/

/-- The flat JSON object persisted in `~/.heye`, at the object level. -/
abbrev Doc := List (String × String)

/-- Why `load_config` can fail to read an existing file:
`json.JSONDecodeError`, `IOError`, `UnicodeDecodeError` in the source. -/
inductive ReadFailure
  | parseError
  | ioError
  | decodeError
deriving DecidableEq

/-- State of the config file `~/.heye`. -/
inductive ConfigFile
  | missing
  | unreadable (e : ReadFailure)
  | stored (doc : Doc)

/-- Embedding of `Eye.load_config`: return the parsed document; an absent file or any
read/parse/decode failure yields the empty object `{}`. -/
def load_config : ConfigFile → Doc
  | .missing => []
  | .unreadable _ => []
  | .stored d => d

/-- Embedding of `Eye.save_config` (successful write): the file now stores the document. -/
def save_config (d : Doc) : ConfigFile := .stored d

/-- Python `config[k] = v` on a dict: overwrite in place, or append. -/
def dictSet : Doc → String → String → Doc
  | [], k, v => [(k, v)]
  | (k₀, v₀) :: rest, k, v =>
    if k₀ = k then (k, v) :: rest else (k₀, v₀) :: dictSet rest k v

/-- Python `config.get(k)` on a dict (`None` when absent). -/
def dictGet (d : Doc) (k : String) : Option String := d.lookup k

/-- The optional command-line overrides handed to `Eye.__init__`. -/
structure Overrides where
  query_text : Option String
  model_name : Option String
  base_url : Option String
  api_token : Option String

/-- No override given on the command line. -/
def emptyOverrides : Overrides := ⟨none, none, none, none⟩

/-- The four `if x is not None: config[...] = x` statements of
`_setup_configuration`, in source order. -/
def applyOverrides (d : Doc) (o : Overrides) : Doc :=
  let d₁ := match o.base_url with | some v => dictSet d "base_url" v | none => d
  let d₂ := match o.api_token with | some v => dictSet d₁ "api_token" v | none => d₁
  let d₃ := match o.model_name with | some v => dictSet d₂ "model_name" v | none => d₂
  match o.query_text with | some v => dictSet d₃ "query_text" v | none => d₃

/-- The guard `if base_url is not None or api_token is not None or ...`
deciding whether `save_config` is called. -/
def anyOverride (o : Overrides) : Bool :=
  o.base_url.isSome || o.api_token.isSome || o.model_name.isSome || o.query_text.isSome

/-- Python `x or y` for an optional string `x`: `y` when `x` is `None` or
empty (falsy), else `x`. -/
def pyOrElse (x : Option String) (y : String) : String :=
  match x with
  | some s => if s = "" then y else s
  | none => y

/-- Hardcoded default endpoint. -/
def defaultBaseUrl : String := "https://dashscope.aliyuncs.com/compatible-mode/v1"

/-- Hardcoded default model id. -/
def defaultModelName : String := "qwen3-vl-plus"

/-- Hardcoded default prompt. -/
def defaultQueryText : String := "What scene is depicted in the image?"

/-- The four attributes `_setup_configuration` leaves on the `Eye` object.
`api_token` stays optional because its default is `os.getenv(...)`,
which can itself be absent. -/
structure Resolved where
  base_url : String
  api_token : Option String
  model_name : String
  query_text : String

/-- The tail of `_setup_configuration`: `config.get(key, default)` for
`base_url`/`api_token`, and `override or config.get(key, default)` for
`model_name`/`query_text`.  `env` is `os.getenv` of the token variable. -/
def resolve (d : Doc) (o : Overrides) (env : Option String) : Resolved where
  base_url := (dictGet d "base_url").getD defaultBaseUrl
  api_token :=
    match dictGet d "api_token" with
    | some v => some v
    | none => env
  model_name := pyOrElse o.model_name ((dictGet d "model_name").getD defaultModelName)
  query_text := pyOrElse o.query_text ((dictGet d "query_text").getD defaultQueryText)

/-- Embedding of `Eye._setup_configuration`: load, apply the non-null overrides, save when
at least one override was given, and resolve the four run values. -/
def setup_configuration (fs : ConfigFile) (o : Overrides) (env : Option String) :
    Resolved × ConfigFile :=
  let d := load_config fs
  let d₁ := applyOverrides d o
  (resolve d₁ o env, if anyOverride o then save_config d₁ else fs)

/-! ## Settings as a record, and its document form (for the round-trip claim) -/

/-- A settings object: the four optional persisted keys. -/
structure Settings where
  base_url : Option String
  api_token : Option String
  model_name : Option String
  query_text : Option String
deriving DecidableEq

/-- A settings object as the flat JSON document `save_config` writes:
exactly the present keys. -/
def settingsToDoc (s : Settings) : Doc :=
  (match s.base_url with | some v => [("base_url", v)] | none => [])
    ++ (match s.api_token with | some v => [("api_token", v)] | none => [])
    ++ (match s.model_name with | some v => [("model_name", v)] | none => [])
    ++ (match s.query_text with | some v => [("query_text", v)] | none => [])

/-- Read a settings object off a loaded document. -/
def docToSettings (d : Doc) : Settings where
  base_url := dictGet d "base_url"
  api_token := dictGet d "api_token"
  model_name := dictGet d "model_name"
  query_text := dictGet d "query_text"

/-! ## Image validation (`validate_image`) -/

/-- Outcome of `Eye.validate_image`: success, `FileNotFoundError`, or the
`ValueError` raised for an unsupported format. -/
inductive ValidateResult
  | ok
  | notFound
  | unsupportedFormat
deriving DecidableEq

/-- The tuple handed to `str.endswith` in `validate_image`. -/
def supported_extensions : List PyStr :=
  [".png".data, ".jpg".data, ".jpeg".data, ".bmp".data,
   ".webp".data, ".tiff".data, ".tif".data]

/-- Embedding of `Eye.validate_image`: existence first, then
`image_path.lower().endswith(supported_extensions)`. -/
def validate_image (pathExists : Bool) (image_path : PyStr) : ValidateResult :=
  if !pathExists then .notFound
  else if supported_extensions.any (fun s => s.isSuffixOf (pyLower image_path)) then .ok
  else .unsupportedFormat

/-- Spec-side definition for the refinement in claim C4: the extension of a
path is what follows its last dot (`none` when the path has no dot). -/
def afterLastDot : PyStr → Option PyStr
  | [] => none
  | c :: cs =>
    match afterLastDot cs with
    | some r => some r
    | none => if c = '.' then some cs else none

/-- The allow-list of extensions from the spec, without the dots. -/
def allowedExtensions : List PyStr :=
  ["png".data, "jpg".data, "jpeg".data, "bmp".data,
   "webp".data, "tiff".data, "tif".data]

/-! ## Content type (`get_image_content_type`) -/

/-- Python `s.split('.')[-1]`: the segment after the last dot, or the whole
string when it has no dot. -/
def lastSplitSeg (s : PyStr) : PyStr :=
  match afterLastDot s with
  | some r => r
  | none => s

/-- The `content_types` dict of `get_image_content_type`. -/
def content_types : List (PyStr × String) :=
  [("png".data, "image/png"), ("jpg".data, "image/jpeg"), ("jpeg".data, "image/jpeg"),
   ("bmp".data, "image/bmp"), ("webp".data, "image/webp"), ("tiff".data, "image/tiff"),
   ("tif".data, "image/tiff")]

/-- Embedding of `Eye.get_image_content_type`:
`content_types.get(image_path.lower().split('.')[-1], 'image/png')`. -/
def get_image_content_type (image_path : PyStr) : String :=
  (content_types.lookup (lastSplitSeg (pyLower image_path))).getD "image/png"

/-! ## Request assembly and streaming (`process_query`) -/

/-- One content part of the single user message. -/
inductive ContentPart
  | image_url (url : String)
  | text (t : String)
deriving DecidableEq

/-- A chat message: a role and ordered content parts. -/
structure ChatMessage where
  role : String
  content : List ContentPart
deriving DecidableEq

/-- The `messages` literal built in `process_query`. -/
def buildMessages (content_type : String) (base64_image : String)
    (query_text : String) : List ChatMessage :=
  [{ role := "user",
     content :=
       [ContentPart.image_url ("data:" ++ content_type ++ ";base64," ++ base64_image),
        ContentPart.text query_text] }]

/-- One iteration of the stream loop: state is (accumulator, prints so far);
`if delta.content:` skips `None` and the empty (falsy) string, otherwise
prints then appends. -/
def streamStep (st : PyStr × List PyStr) (delta : Option PyStr) : PyStr × List PyStr :=
  match delta with
  | some s => if s = [] then st else (st.1 ++ s, st.2 ++ [s])
  | none => st

/-- The whole stream loop of `process_query`, from the empty accumulator. -/
def processStream (chunks : List (Option PyStr)) : PyStr × List PyStr :=
  chunks.foldl streamStep ([], [])

/-- The non-empty text deltas of a chunk list, in arrival order. -/
def nonEmptyDeltas (chunks : List (Option PyStr)) : List PyStr :=
  chunks.filterMap fun c =>
    match c with
    | some s => if s = [] then none else some s
    | none => none

/-- The exceptions `process_query` can raise before any network traffic. -/
inductive PyError
  | fileNotFoundError
  | valueError
deriving DecidableEq

/-- Observable events of one run. -/
inductive RunEvent
  | networkCall
  | printed (s : PyStr)
deriving DecidableEq

/-- Embedding of `Eye.process_query`: validate, then (encode has no observable effect on
its string-level result, which enters as `base64_image`) build the messages
and consume the stream.  Returns the messages sent together with the final
accumulator and the prints. -/
def process_query (pathExists : Bool) (image_path : PyStr) (base64_image : String)
    (query_text : String) (chunks : List (Option PyStr)) :
    Except PyError (List ChatMessage × PyStr × List PyStr) :=
  match validate_image pathExists image_path with
  | .notFound => .error .fileNotFoundError
  | .unsupportedFormat => .error .valueError
  | .ok =>
    .ok (buildMessages (get_image_content_type image_path) base64_image query_text,
         processStream chunks)

/-- The event trace of one run: on a validation failure nothing happens; on
success one network call, then the prints of the stream loop. -/
def processQueryTrace (pathExists : Bool) (image_path : PyStr)
    (chunks : List (Option PyStr)) : List RunEvent :=
  match validate_image pathExists image_path with
  | .notFound => []
  | .unsupportedFormat => []
  | .ok => RunEvent.networkCall :: (nonEmptyDeltas chunks).map RunEvent.printed

/-! ## Dictionary lemmas -/

theorem lookup_cons_of_ne {α β : Type} [BEq α] [LawfulBEq α] {a k : α} {b : β}
    (es : List (α × β)) (h : a ≠ k) :
    ((k, b) :: es).lookup a = es.lookup a := by
  have hbe : (a == k) = false := by simp [h]
  simp [List.lookup_cons, hbe]

theorem dictGet_dictSet_self (d : Doc) (k v : String) :
    dictGet (dictSet d k v) k = some v := by
  induction d with
  | nil => simp [dictSet, dictGet]
  | cons p rest ih =>
    obtain ⟨k₀, v₀⟩ := p
    by_cases h : k₀ = k
    · subst h; simp [dictSet, dictGet]
    · rw [dictSet, if_neg h]
      show dictGet ((k₀, v₀) :: dictSet rest k v) k = some v
      rw [dictGet, lookup_cons_of_ne _ (Ne.symm h)]
      exact ih

theorem dictGet_dictSet_ne (d : Doc) (k k₁ v : String) (h : k ≠ k₁) :
    dictGet (dictSet d k v) k₁ = dictGet d k₁ := by
  induction d with
  | nil => simp [dictSet, dictGet, lookup_cons_of_ne _ (Ne.symm h)]
  | cons p rest ih =>
    obtain ⟨k₀, v₀⟩ := p
    by_cases h₀ : k₀ = k
    · rw [dictSet, if_pos h₀]
      show dictGet ((k, v) :: rest) k₁ = dictGet ((k₀, v₀) :: rest) k₁
      have hk₁ : k₁ ≠ k₀ := by rw [h₀]; exact Ne.symm h
      rw [dictGet, dictGet, lookup_cons_of_ne _ (Ne.symm h), lookup_cons_of_ne _ hk₁]
    · rw [dictSet, if_neg h₀]
      show dictGet ((k₀, v₀) :: dictSet rest k v) k₁ = dictGet ((k₀, v₀) :: rest) k₁
      by_cases h₁ : k₁ = k₀
      · subst h₁; simp [dictGet]
      · rw [dictGet, dictGet, lookup_cons_of_ne _ h₁, lookup_cons_of_ne _ h₁]
        exact ih

theorem applyOverrides_base_url (d : Doc) (o : Overrides) :
    dictGet (applyOverrides d o) "base_url" =
      match o.base_url with
      | some v => some v
      | none => dictGet d "base_url" := by
  obtain ⟨q, m, b, t⟩ := o
  cases q <;> cases m <;> cases b <;> cases t <;>
    simp [applyOverrides, dictGet_dictSet_self, dictGet_dictSet_ne]

theorem applyOverrides_api_token (d : Doc) (o : Overrides) :
    dictGet (applyOverrides d o) "api_token" =
      match o.api_token with
      | some v => some v
      | none => dictGet d "api_token" := by
  obtain ⟨q, m, b, t⟩ := o
  cases q <;> cases m <;> cases b <;> cases t <;>
    simp [applyOverrides, dictGet_dictSet_self, dictGet_dictSet_ne]

theorem applyOverrides_model_name (d : Doc) (o : Overrides) :
    dictGet (applyOverrides d o) "model_name" =
      match o.model_name with
      | some v => some v
      | none => dictGet d "model_name" := by
  obtain ⟨q, m, b, t⟩ := o
  cases q <;> cases m <;> cases b <;> cases t <;>
    simp [applyOverrides, dictGet_dictSet_self, dictGet_dictSet_ne]

theorem applyOverrides_query_text (d : Doc) (o : Overrides) :
    dictGet (applyOverrides d o) "query_text" =
      match o.query_text with
      | some v => some v
      | none => dictGet d "query_text" := by
  obtain ⟨q, m, b, t⟩ := o
  cases q <;> cases m <;> cases b <;> cases t <;>
    simp [applyOverrides, dictGet_dictSet_self, dictGet_dictSet_ne]

/-! ## Claim theorems -/

/-- Claim C8: merging the empty override set changes nothing: the merged document
is the loaded one unchanged, and the config file is not rewritten. -/
theorem merge_empty_overrides (fs : ConfigFile) (env : Option String) :
    applyOverrides (load_config fs) emptyOverrides = load_config fs ∧
    (setup_configuration fs emptyOverrides env).2 = fs ∧
    (setup_configuration fs emptyOverrides env).1 =
      resolve (load_config fs) emptyOverrides env :=
  ⟨rfl, rfl, rfl⟩

/-- Claim C7: saving a settings object and loading it back yields an equal
settings object. -/
theorem settings_roundtrip (s : Settings) :
    docToSettings (load_config (save_config (settingsToDoc s))) = s := by
  obtain ⟨b, a, m, q⟩ := s
  cases b <;> cases a <;> cases m <;> cases q <;>
    simp [docToSettings, settingsToDoc, load_config, save_config, dictGet,
      List.lookup_cons]

/-- Claim C3: `load_config` yields the empty settings object on a missing file and
on every parse/IO/encoding failure, raising nothing (it is a total
function into `Doc`). -/
theorem load_config_tolerant :
    load_config ConfigFile.missing = [] ∧
    (∀ e : ReadFailure, load_config (ConfigFile.unreadable e) = []) ∧
    docToSettings (load_config ConfigFile.missing) = ⟨none, none, none, none⟩ ∧
    (∀ e : ReadFailure,
      docToSettings (load_config (ConfigFile.unreadable e)) = ⟨none, none, none, none⟩) :=
  ⟨rfl, fun _ => rfl, rfl, fun _ => rfl⟩

theorem streamStep_foldl (chunks : List (Option PyStr)) (acc : PyStr) (out : List PyStr) :
    chunks.foldl streamStep (acc, out) =
      (acc ++ (nonEmptyDeltas chunks).flatten, out ++ nonEmptyDeltas chunks) := by
  induction chunks generalizing acc out with
  | nil => simp [nonEmptyDeltas]
  | cons c rest ih =>
    cases c with
    | none => simpa [nonEmptyDeltas, streamStep] using ih acc out
    | some s =>
      by_cases h : s = []
      · subst h; simpa [nonEmptyDeltas, streamStep] using ih acc out
      · simp [nonEmptyDeltas, streamStep, h, ih]

/-- Claim C2: at the end of the stream loop the accumulator equals the
concatenation of the non-empty chunk deltas in arrival order, the prints are
exactly those deltas, and the accumulator equals the concatenation of what
was printed. -/
theorem stream_accumulation (chunks : List (Option PyStr)) :
    (processStream chunks).1 = (nonEmptyDeltas chunks).flatten ∧
    (processStream chunks).2 = nonEmptyDeltas chunks ∧
    (processStream chunks).1 = ((processStream chunks).2).flatten := by
  have h := streamStep_foldl chunks [] []
  simp [processStream, h]

/-- Claim C5: the request is one user message whose content is exactly the image
data-URI part followed by the text part, in that order. -/
theorem build_request_shape (content_type base64_image query_text : String) :
    buildMessages content_type base64_image query_text =
      [{ role := "user",
         content :=
           [ContentPart.image_url ("data:" ++ content_type ++ ";base64," ++ base64_image),
            ContentPart.text query_text] }] := rfl

theorem pyOrElse_self (v : String) : pyOrElse (some v) v = v := by
  by_cases h : v = "" <;> simp [pyOrElse, h]

/-- Claim C1: resolution precedence for the four settings keys: a non-null
override wins; otherwise the persisted value wins; otherwise the hardcoded
default applies (the fixed endpoint, model id and prompt, and the
environment lookup `env` for the token). -/
theorem resolved_precedence (fs : ConfigFile) (o : Overrides) (env : Option String) :
    (∀ v, o.base_url = some v → ((setup_configuration fs o env).1).base_url = v) ∧
    (o.base_url = none → ∀ w, dictGet (load_config fs) "base_url" = some w →
      ((setup_configuration fs o env).1).base_url = w) ∧
    (o.base_url = none → dictGet (load_config fs) "base_url" = none →
      ((setup_configuration fs o env).1).base_url = defaultBaseUrl) ∧
    (∀ v, o.api_token = some v → ((setup_configuration fs o env).1).api_token = some v) ∧
    (o.api_token = none → ∀ w, dictGet (load_config fs) "api_token" = some w →
      ((setup_configuration fs o env).1).api_token = some w) ∧
    (o.api_token = none → dictGet (load_config fs) "api_token" = none →
      ((setup_configuration fs o env).1).api_token = env) ∧
    (∀ v, o.model_name = some v → ((setup_configuration fs o env).1).model_name = v) ∧
    (o.model_name = none → ∀ w, dictGet (load_config fs) "model_name" = some w →
      ((setup_configuration fs o env).1).model_name = w) ∧
    (o.model_name = none → dictGet (load_config fs) "model_name" = none →
      ((setup_configuration fs o env).1).model_name = defaultModelName) ∧
    (∀ v, o.query_text = some v → ((setup_configuration fs o env).1).query_text = v) ∧
    (o.query_text = none → ∀ w, dictGet (load_config fs) "query_text" = some w →
      ((setup_configuration fs o env).1).query_text = w) ∧
    (o.query_text = none → dictGet (load_config fs) "query_text" = none →
      ((setup_configuration fs o env).1).query_text = defaultQueryText) := by
  refine ⟨?_, ?_, ?_, ?_, ?_, ?_, ?_, ?_, ?_, ?_, ?_, ?_⟩
  · intro v hv
    simp [setup_configuration, resolve, applyOverrides_base_url, hv]
  · intro h₀ w hw
    simp [setup_configuration, resolve, applyOverrides_base_url, h₀, hw]
  · intro h₀ hn
    simp [setup_configuration, resolve, applyOverrides_base_url, h₀, hn]
  · intro v hv
    simp [setup_configuration, resolve, applyOverrides_api_token, hv]
  · intro h₀ w hw
    simp [setup_configuration, resolve, applyOverrides_api_token, h₀, hw]
  · intro h₀ hn
    simp [setup_configuration, resolve, applyOverrides_api_token, h₀, hn]
  · intro v hv
    simp [setup_configuration, resolve, applyOverrides_model_name, hv, pyOrElse_self]
  · intro h₀ w hw
    simp [setup_configuration, resolve, applyOverrides_model_name, h₀, hw, pyOrElse]
  · intro h₀ hn
    simp [setup_configuration, resolve, applyOverrides_model_name, h₀, hn, pyOrElse]
  · intro v hv
    simp [setup_configuration, resolve, applyOverrides_query_text, hv, pyOrElse_self]
  · intro h₀ w hw
    simp [setup_configuration, resolve, applyOverrides_query_text, h₀, hw, pyOrElse]
  · intro h₀ hn
    simp [setup_configuration, resolve, applyOverrides_query_text, h₀, hn, pyOrElse]

/-- Witness for C1 at a concrete store, override set and environment:
the base-url override wins, the persisted model name wins over the default,
the absent token falls back to the environment, and the query override
wins. -/
theorem resolved_precedence_witness :
    ((setup_configuration
        (ConfigFile.stored [("base_url", "https://persisted"), ("model_name", "qwen3-vl-flash")])
        ⟨some "describe", none, some "https://x", none⟩ (some "T123")).1).base_url =
      "https://x" ∧
    ((setup_configuration
        (ConfigFile.stored [("base_url", "https://persisted"), ("model_name", "qwen3-vl-flash")])
        ⟨some "describe", none, some "https://x", none⟩ (some "T123")).1).model_name =
      "qwen3-vl-flash" ∧
    ((setup_configuration
        (ConfigFile.stored [("base_url", "https://persisted"), ("model_name", "qwen3-vl-flash")])
        ⟨some "describe", none, some "https://x", none⟩ (some "T123")).1).api_token =
      some "T123" ∧
    ((setup_configuration
        (ConfigFile.stored [("base_url", "https://persisted"), ("model_name", "qwen3-vl-flash")])
        ⟨some "describe", none, some "https://x", none⟩ (some "T123")).1).query_text =
      "describe" := by
  have h := resolved_precedence
    (ConfigFile.stored [("base_url", "https://persisted"), ("model_name", "qwen3-vl-flash")])
    ⟨some "describe", none, some "https://x", none⟩ (some "T123")
  refine ⟨h.1 "https://x" rfl, ?_, ?_, ?_⟩
  · exact h.2.2.2.2.2.2.2.1 rfl "qwen3-vl-flash" (by decide)
  · exact h.2.2.2.2.2.1 rfl (by decide)
  · exact h.2.2.2.2.2.2.2.2.2.1 "describe" rfl

/-! ## Extension lemmas: `endswith` on the dotted suffixes is exactly
membership of the after-last-dot extension in the allow-list -/

theorem dot_mem_of_afterLastDot_isSome {l : PyStr} (h : (afterLastDot l).isSome) :
    '.' ∈ l := by
  induction l with
  | nil => simp [afterLastDot] at h
  | cons c cs ih =>
    rw [afterLastDot] at h
    split at h
    · next hcs => exact List.mem_cons_of_mem _ (ih (by rw [hcs]; rfl))
    · next hcs =>
      by_cases hc : c = '.'
      · exact hc ▸ List.mem_cons_self _ _
      · rw [if_neg hc] at h
        simp at h

theorem afterLastDot_isSome_of_dot_mem {l : PyStr} (h : '.' ∈ l) :
    (afterLastDot l).isSome := by
  induction l with
  | nil => simp at h
  | cons c cs ih =>
    rw [afterLastDot]
    cases hcs : afterLastDot cs with
    | some r => simp
    | none =>
      rcases List.mem_cons.mp h with hc | hm
      · simp [← hc]
      · have hs := ih hm
        rw [hcs] at hs
        simp at hs

theorem afterLastDot_eq_some_iff {e : PyStr} (he : '.' ∉ e) (l : PyStr) :
    afterLastDot l = some e ↔ ∃ t, l = t ++ '.' :: e := by
  induction l with
  | nil =>
    simp only [afterLastDot]
    constructor
    · intro h; exact absurd h (by simp)
    · rintro ⟨t, ht⟩
      exact absurd ht.symm (by simp)
  | cons c cs ih =>
    rw [afterLastDot]
    cases hcs : afterLastDot cs with
    | some r =>
      show some r = some e ↔ ∃ t, c :: cs = t ++ '.' :: e
      constructor
      · intro h
        obtain ⟨t, ht⟩ := ih.mp (by rw [hcs]; exact h)
        exact ⟨c :: t, by rw [List.cons_append, ← ht]⟩
      · rintro ⟨t, ht⟩
        cases t with
        | nil =>
          have hcse : cs = e := by injection ht
          have hdm : '.' ∈ cs := dot_mem_of_afterLastDot_isSome (by rw [hcs]; rfl)
          rw [hcse] at hdm
          exact absurd hdm he
        | cons c₁ t₁ =>
          rw [List.cons_append] at ht
          have hcs₁ : cs = t₁ ++ '.' :: e := by injection ht
          have hsome : afterLastDot cs = some e := ih.mpr ⟨t₁, hcs₁⟩
          rw [hcs] at hsome
          exact hsome
    | none =>
      show (if c = '.' then some cs else none) = some e ↔ ∃ t, c :: cs = t ++ '.' :: e
      by_cases hc : c = '.'
      · subst hc
        rw [if_pos rfl]
        constructor
        · intro h
          have hcse : cs = e := by injection h
          exact ⟨[], by rw [hcse]; rfl⟩
        · rintro ⟨t, ht⟩
          cases t with
          | nil =>
            have hcse : cs = e := by injection ht
            rw [hcse]
          | cons c₁ t₁ =>
            rw [List.cons_append] at ht
            have hcs₁ : cs = t₁ ++ '.' :: e := by injection ht
            have hs : (afterLastDot cs).isSome := by
              rw [ih.mpr ⟨t₁, hcs₁⟩]; rfl
            rw [hcs] at hs
            simp at hs
      · rw [if_neg hc]
        constructor
        · intro h; exact absurd h (by simp)
        · rintro ⟨t, ht⟩
          cases t with
          | nil =>
            have : c = '.' := by injection ht
            exact absurd this hc
          | cons c₁ t₁ =>
            rw [List.cons_append] at ht
            have hcs₁ : cs = t₁ ++ '.' :: e := by injection ht
            have hs : (afterLastDot cs).isSome := by
              rw [ih.mpr ⟨t₁, hcs₁⟩]; rfl
            rw [hcs] at hs
            simp at hs

theorem isSuffixOf_dot_iff {e : PyStr} (he : '.' ∉ e) (l : PyStr) :
    (('.' :: e).isSuffixOf l) = true ↔ afterLastDot l = some e := by
  rw [List.isSuffixOf_iff_suffix]
  constructor
  · rintro ⟨t, ht⟩
    exact (afterLastDot_eq_some_iff he l).mpr ⟨t, ht.symm⟩
  · intro h
    obtain ⟨t, ht⟩ := (afterLastDot_eq_some_iff he l).mp h
    exact ⟨t, ht.symm⟩

theorem endswith_supported_iff (l : PyStr) :
    (supported_extensions.any fun s => s.isSuffixOf l) = true ↔
      ∃ e ∈ allowedExtensions, afterLastDot l = some e := by
  have hmap : supported_extensions = allowedExtensions.map (fun e => '.' :: e) := by decide
  have hdot : ∀ e ∈ allowedExtensions, '.' ∉ e := by decide
  rw [hmap, List.any_map, List.any_eq_true]
  constructor
  · rintro ⟨e, he, hs⟩
    exact ⟨e, he, (isSuffixOf_dot_iff (hdot e he) l).mp hs⟩
  · rintro ⟨e, he, ha⟩
    exact ⟨e, he, (isSuffixOf_dot_iff (hdot e he) l).mpr ha⟩

/-- Claim C4: validation accepts a path exactly when the file exists and the
case-insensitive extension (the part after the last dot of the lowercased
path) is in the allow-list; a missing file gives the not-found error, and
an existing file whose extension is outside the allow-list gives the
unsupported-format error. -/
theorem validate_allowlist (pathExists : Bool) (p : PyStr) :
    (validate_image pathExists p = .ok ↔
      pathExists = true ∧ ∃ e ∈ allowedExtensions, afterLastDot (pyLower p) = some e) ∧
    (pathExists = false → validate_image pathExists p = .notFound) ∧
    (pathExists = true →
      (∀ e ∈ allowedExtensions, afterLastDot (pyLower p) ≠ some e) →
      validate_image pathExists p = .unsupportedFormat) := by
  refine ⟨⟨?_, ?_⟩, ?_, ?_⟩
  · intro hok
    cases pathExists with
    | false => simp [validate_image] at hok
    | true =>
      refine ⟨rfl, ?_⟩
      by_cases h : (supported_extensions.any fun s => s.isSuffixOf (pyLower p)) = true
      · exact (endswith_supported_iff (pyLower p)).mp h
      · simp [validate_image, h] at hok
  · rintro ⟨hp, he⟩
    subst hp
    have h := (endswith_supported_iff (pyLower p)).mpr he
    simp [validate_image, h]
  · intro hp
    subst hp
    rfl
  · intro hp hall
    subst hp
    have h : ¬ (supported_extensions.any fun s => s.isSuffixOf (pyLower p)) = true := by
      intro hc
      obtain ⟨e, he, ha⟩ := (endswith_supported_iff (pyLower p)).mp hc
      exact hall e he ha
    simp [validate_image, h]

/-- Witness for C4: an existing `photo.PNG` is accepted (uppercase variant),
an existing `document.pdf` is rejected as unsupported, and a missing
`./no.png` is rejected as not found. -/
theorem validate_allowlist_witness :
    validate_image true "photo.PNG".data = ValidateResult.ok ∧
    validate_image true "document.pdf".data = ValidateResult.unsupportedFormat ∧
    validate_image false "./no.png".data = ValidateResult.notFound :=
  ⟨(validate_allowlist true "photo.PNG".data).1.mpr ⟨rfl, by decide⟩,
   (validate_allowlist true "document.pdf".data).2.2 rfl (by decide),
   (validate_allowlist false "./no.png".data).2.1 rfl⟩

theorem content_types_lookup_unknown {s : PyStr} (h : s ∉ allowedExtensions) :
    content_types.lookup s = none := by
  simp only [allowedExtensions, List.mem_cons, List.not_mem_nil, or_false, not_or] at h
  obtain ⟨h₁, h₂, h₃, h₄, h₅, h₆, h₇⟩ := h
  rw [content_types, lookup_cons_of_ne _ h₁, lookup_cons_of_ne _ h₂, lookup_cons_of_ne _ h₃,
    lookup_cons_of_ne _ h₄, lookup_cons_of_ne _ h₅, lookup_cons_of_ne _ h₆,
    lookup_cons_of_ne _ h₇, List.lookup_nil]

/-- Claim C6: the content type is a function of the lowercased extension alone
(two paths with the same lowercased last dot-segment get the same MIME
string), each known extension maps to its fixed MIME string, and any
unknown extension yields `image/png`. -/
theorem content_type_of_extension (p q : PyStr) :
    (lastSplitSeg (pyLower p) = lastSplitSeg (pyLower q) →
      get_image_content_type p = get_image_content_type q) ∧
    (lastSplitSeg (pyLower p) = "png".data → get_image_content_type p = "image/png") ∧
    (lastSplitSeg (pyLower p) = "jpg".data → get_image_content_type p = "image/jpeg") ∧
    (lastSplitSeg (pyLower p) = "jpeg".data → get_image_content_type p = "image/jpeg") ∧
    (lastSplitSeg (pyLower p) = "bmp".data → get_image_content_type p = "image/bmp") ∧
    (lastSplitSeg (pyLower p) = "webp".data → get_image_content_type p = "image/webp") ∧
    (lastSplitSeg (pyLower p) = "tiff".data → get_image_content_type p = "image/tiff") ∧
    (lastSplitSeg (pyLower p) = "tif".data → get_image_content_type p = "image/tiff") ∧
    (lastSplitSeg (pyLower p) ∉ allowedExtensions →
      get_image_content_type p = "image/png") := by
  refine ⟨?_, ?_, ?_, ?_, ?_, ?_, ?_, ?_, ?_⟩
  · intro h
    rw [get_image_content_type, get_image_content_type, h]
  all_goals intro h
  · rw [get_image_content_type, h]; decide
  · rw [get_image_content_type, h]; decide
  · rw [get_image_content_type, h]; decide
  · rw [get_image_content_type, h]; decide
  · rw [get_image_content_type, h]; decide
  · rw [get_image_content_type, h]; decide
  · rw [get_image_content_type, h]; decide
  · rw [get_image_content_type, content_types_lookup_unknown h]; rfl

/-- Witness for C6: `photo.JPG` resolves to `image/jpeg`, and an unknown
extension (`archive.xyz`) falls back to `image/png`. -/
theorem content_type_of_extension_witness :
    get_image_content_type "photo.JPG".data = "image/jpeg" ∧
    get_image_content_type "archive.xyz".data = "image/png" :=
  ⟨(content_type_of_extension "photo.JPG".data []).2.2.1 (by decide),
   (content_type_of_extension "archive.xyz".data []).2.2.2.2.2.2.2.2 (by decide)⟩

/-- Claim C9: a run on the existing path `document.pdf` fails with the
unsupported-format error and its event trace contains no network call. -/
theorem pdf_fails_before_network (base64_image query_text : String)
    (chunks : List (Option PyStr)) :
    process_query true "document.pdf".data base64_image query_text chunks =
      Except.error PyError.valueError ∧
    RunEvent.networkCall ∉ processQueryTrace true "document.pdf".data chunks := by
  have hv : validate_image true "document.pdf".data = .unsupportedFormat := by decide
  constructor
  · simp [process_query, hv]
  · simp [processQueryTrace, hv]

/-- Claim C10: existence is checked before the format: a missing file always
yields the not-found error (whatever the extension), and the
unsupported-format error is only reachable for an existing file. -/
theorem existence_checked_first :
    (∀ p : PyStr, validate_image false p = ValidateResult.notFound) ∧
    (∀ (pathExists : Bool) (p : PyStr),
      validate_image pathExists p = ValidateResult.unsupportedFormat → pathExists = true) := by
  refine ⟨fun p => rfl, fun pathExists p h => ?_⟩
  cases pathExists with
  | true => rfl
  | false => simp [validate_image] at h

/-- Witness for C10: a missing `document.pdf` (extension outside the
allow-list) still reports not-found, and the unsupported-format outcome on
the existing `document.pdf` certifies existence. -/
theorem existence_checked_first_witness :
    validate_image false "document.pdf".data = ValidateResult.notFound ∧ true = true :=
  ⟨existence_checked_first.1 "document.pdf".data,
   existence_checked_first.2 true "document.pdf".data (by decide)⟩

end Heye
